import Mathlib

/-!
Verification of the goit-algo-hw-05 repository: a log-file analyzer
(`Task_three.py`) and a contact-book REPL (`Task_four.py`).

Python strings are modelled as `List Char`; `str.strip`, `str.split`,
`str.upper`, `str.lower` are embedded explicitly.  File I/O is modelled by an
abstract filesystem `List Char → Option (List (List Char))` mapping a path to
the file's lines when the file can be opened.  Python dicts are modelled as
insertion-ordered association lists.
-/

deriving instance DecidableEq for Except

/-- Characters of a Lean string literal, used to write concrete Python strings. -/
def str (s : String) : List Char := s.data

/-- Python `str.isspace` on the ASCII whitespace characters recognised by
`str.split` and `str.strip`: space, tab, newline, carriage return, vertical
tab, form feed. -/
def pyIsSpace (c : Char) : Bool :=
  c == ' ' || c == '\t' || c == '\n' || c == '\r' ||
    c == Char.ofNat 11 || c == Char.ofNat 12

/-- Python `s.split(maxsplit=n)`: skip leading whitespace; while budget
remains, emit the next maximal run of non-whitespace as a token; once the
budget is exhausted the whole remainder (leading whitespace dropped) is the
final element. -/
def pySplitMax : List Char → Nat → List (List Char)
  | cs, 0 =>
    match cs.dropWhile pyIsSpace with
    | [] => []
    | c :: rest => [c :: rest]
  | cs, n + 1 =>
    match cs.dropWhile pyIsSpace with
    | [] => []
    | c :: rest =>
      ((c :: rest).takeWhile (fun x => !pyIsSpace x)) ::
        pySplitMax ((c :: rest).dropWhile (fun x => !pyIsSpace x)) n

/-- Python `s.split()` (no maxsplit): a budget of `length cs` can never be
exhausted before the input is, so it behaves as the unbounded split. -/
def pySplit (cs : List Char) : List (List Char) := pySplitMax cs cs.length

/-- Python `s.strip()`: drop whitespace from both ends. -/
def pyStrip (cs : List Char) : List Char :=
  ((cs.dropWhile pyIsSpace).reverse.dropWhile pyIsSpace).reverse

/-- Python `s.upper()` on ASCII text. -/
def pyUpper (cs : List Char) : List Char := cs.map Char.toUpper

/-- Python `s.lower()` on ASCII text. -/
def pyLower (cs : List Char) : List Char := cs.map Char.toLower


namespace Task_three

/-- The fixed level set `LOG_LEVELS = ("INFO", "ERROR", "DEBUG", "WARNING")`. -/
def LOG_LEVELS : List (List Char) :=
  [str "INFO", str "ERROR", str "DEBUG", str "WARNING"]

/-- The `LogRecord` TypedDict: date, time, level, message. -/
structure LogRecord where
  date : List Char
  time : List Char
  level : List Char
  message : List Char
deriving DecidableEq

/-- The two `ValueError` shapes `parse_log_line` can raise: invalid format
(fewer than four tokens) and unknown level token. -/
inductive ParseErr
  | formatError
  | unknownLevel
deriving DecidableEq

/-- Embedding of `parse_log_line`: `parts = line.strip().split(maxsplit=3)`;
fewer than four parts is a format error; a third part outside `LOG_LEVELS` is
an unknown-level error; otherwise the four parts become the record fields. -/
def parse_log_line (line : List Char) : Except ParseErr LogRecord :=
  match pySplitMax (pyStrip line) 3 with
  | [date, time, level, message] =>
    if level ∈ LOG_LEVELS then Except.ok ⟨date, time, level, message⟩
    else Except.error ParseErr.unknownLevel
  | _ => Except.error ParseErr.formatError

/-- The error `load_logs` raises when the file cannot be opened; it carries
the path (the model does not distinguish `FileNotFoundError` from `OSError`,
both abort the whole call). -/
inductive LoadErr
  | sourceUnavailable (path : List Char)
deriving DecidableEq

/-- The loop body of `load_logs` over the file's lines, with 1-based line
numbers: blank lines are skipped, parse failures are recorded as warnings
(line number and error) and the line is excluded, successes are appended. -/
def processLines : Nat → List (List Char) → List LogRecord × List (Nat × ParseErr)
  | _, [] => ([], [])
  | n, line :: rest =>
    if (pyStrip line).isEmpty then processLines (n + 1) rest
    else
      match parse_log_line line with
      | Except.ok r =>
        let p := processLines (n + 1) rest
        (r :: p.1, p.2)
      | Except.error e =>
        let p := processLines (n + 1) rest
        (p.1, (n, e) :: p.2)

/-- Embedding of `load_logs` over an abstract filesystem `fs` (a path maps to
`some lines` when the file opens, `none` when it cannot be opened): an
unopenable file fails the whole call with an error carrying the path;
otherwise the lines are processed with `processLines` starting at line 1.
The second component of the result is the list of warnings printed to
stderr. -/
def load_logs (fs : List Char → Option (List (List Char))) (file_path : List Char) :
    Except LoadErr (List LogRecord × List (Nat × ParseErr)) :=
  match fs file_path with
  | none => Except.error (LoadErr.sourceUnavailable file_path)
  | some lines => Except.ok (processLines 1 lines)

/-- The `ValueError` raised by `filter_logs_by_level` for a level that is not
in `LOG_LEVELS` after uppercasing; it carries the offending level argument. -/
inductive FilterErr
  | unsupportedLevel (level : List Char)
deriving DecidableEq

/-- Embedding of `filter_logs_by_level`: uppercase the requested level, fail
if it is not in `LOG_LEVELS`, otherwise keep exactly the records whose level
equals the uppercased argument, in order. -/
def filter_logs_by_level (logs : List LogRecord) (level : List Char) :
    Except FilterErr (List LogRecord) :=
  let level_upper := pyUpper level
  if level_upper ∈ LOG_LEVELS then
    Except.ok (logs.filter (fun r => r.level == level_upper))
  else Except.error (FilterErr.unsupportedLevel level)

/-- The dict `\x7blvl: 0 for lvl in LOG_LEVELS\x7d`, as an insertion-ordered
association list. -/
def initCounts : List (List Char × Nat) := LOG_LEVELS.map (fun l => (l, 0))

/-- Python `counts[k] += 1` on an association-list dict: `none` models the
`KeyError` raised when `k` is not among the keys. -/
def bumpKey (k : List Char) : List (List Char × Nat) → Option (List (List Char × Nat))
  | [] => none
  | (k2, v) :: rest =>
    if k2 = k then some ((k2, v + 1) :: rest)
    else (bumpKey k rest).map (fun r => (k2, v) :: r)

/-- The loop of `count_logs_by_level`: bump the counter for each record's
level in turn; a `KeyError` (a level outside the dict's keys) aborts. -/
def countLoop : List (List Char × Nat) → List LogRecord → Option (List (List Char × Nat))
  | counts, [] => some counts
  | counts, r :: rest =>
    match bumpKey r.level counts with
    | none => none
    | some c2 => countLoop c2 rest

/-- Embedding of `count_logs_by_level`: start from the zero-filled dict over
`LOG_LEVELS` and bump per record; `none` models an uncaught `KeyError`. -/
def count_logs_by_level (logs : List LogRecord) : Option (List (List Char × Nat)) :=
  countLoop initCounts logs

/-- Embedding of the CLI `main(argv)`: fewer than two argv entries prints
usage and returns 1; otherwise load, count, and optionally filter, mapping
any caught `FileNotFoundError`/`OSError`/`ValueError` to exit code 1 and
success to 0.  The result is `none` only for an exception `main` does not
catch (a `KeyError` from counting). -/
def main (fs : List Char → Option (List (List Char))) (argv : List (List Char)) :
    Option Nat :=
  match argv with
  | _prog :: file_path :: rest =>
    let level : Option (List Char) := rest.head?
    match load_logs fs file_path with
    | Except.error _ => some 1
    | Except.ok (logs, _warns) =>
      match count_logs_by_level logs with
      | none => none
      | some _counts =>
        match level with
        | none => some 0
        | some lv =>
          match filter_logs_by_level logs lv with
          | Except.error _ => some 1
          | Except.ok _ => some 0
  | _ => some 1

/-- Declarative description of the records `load_logs` keeps: the
successfully parsed non-blank lines, in file order. -/
def parsedRecords (lines : List (List Char)) : List LogRecord :=
  lines.filterMap (fun l =>
    if (pyStrip l).isEmpty then none else (parse_log_line l).toOption)

/-- Lines paired with 1-based line numbers, in order. -/
def numberFrom : Nat → List (List Char) → List (Nat × List Char)
  | _, [] => []
  | n, l :: rest => (n, l) :: numberFrom (n + 1) rest

/-- Declarative description of the warnings `load_logs` emits: one per
non-blank line that fails to parse, carrying its 1-based line number. -/
def parseWarnings (lines : List (List Char)) : List (Nat × ParseErr) :=
  (numberFrom 1 lines).filterMap (fun p =>
    if (pyStrip p.2).isEmpty then none
    else
      match parse_log_line p.2 with
      | Except.ok _ => none
      | Except.error e => some (p.1, e))

/-- The spec's scenario file: three valid lines and one malformed line. -/
def demoLines : List (List Char) :=
  [str "2024-01-01 10:00:00 INFO Started",
   str "garbage line",
   str "2024-01-01 10:05:00 ERROR Failed to connect",
   str "2024-01-01 10:06:00 WARNING Low disk space"]

/-- The path of the scenario file. -/
def demoPath : List Char := str "logs.txt"

/-- A one-file filesystem holding the scenario file. -/
def demoFs (p : List Char) : Option (List (List Char)) :=
  if p = demoPath then some demoLines else none

end Task_three

namespace Task_four

/-- The exception kinds caught by the `input_error` decorator. -/
inductive PyErr
  | valueError (msg : List Char)
  | keyError (msg : List Char)
  | indexError (msg : List Char)
deriving DecidableEq

/-- The apostrophe character, written via its code point. -/
def quoteChar : Char := Char.ofNat 39

/-- Python `str(exc)` for the caught exceptions: a `ValueError` or
`IndexError` renders as its message, a `KeyError` renders as the `repr` of
its key, which wraps the message in single quotes. -/
def excStr : PyErr → List Char
  | PyErr.valueError m => m
  | PyErr.keyError m => quoteChar :: (m ++ [quoteChar])
  | PyErr.indexError m => m

/-- The contacts dict: an insertion-ordered association list from name to
phone. -/
abbrev Contacts : Type := List (List Char × List Char)

/-- Python `name in contacts`. -/
def dictHas (k : List Char) (d : Contacts) : Bool :=
  d.any (fun p => p.1 == k)

/-- Python `contacts[name] = phone`: overwrite in place if the key exists,
otherwise append (dicts preserve insertion order). -/
def dictSet (k v : List Char) : Contacts → Contacts
  | [] => [(k, v)]
  | (k2, v2) :: rest =>
    if k2 == k then (k2, v) :: rest else (k2, v2) :: dictSet k v rest

/-- Python `contacts[name]` as an option. -/
def dictGet (k : List Char) (d : Contacts) : Option (List Char) :=
  (d.find? (fun p => p.1 == k)).map Prod.snd

/-- The undecorated `add_contact`: wrong argument count raises `ValueError`,
otherwise insert/overwrite and reply. -/
def add_contact_raw (args : List (List Char)) (contacts : Contacts) :
    Except PyErr (List Char × Contacts) :=
  match args with
  | [name, phone] => Except.ok (str "Contact added.", dictSet name phone contacts)
  | _ => Except.error (PyErr.valueError (str "Give me name and phone please."))

/-- The undecorated `change_contact`: wrong argument count raises
`ValueError`, an absent name raises `KeyError`, otherwise overwrite. -/
def change_contact_raw (args : List (List Char)) (contacts : Contacts) :
    Except PyErr (List Char × Contacts) :=
  match args with
  | [name, new_phone] =>
    if dictHas name contacts then
      Except.ok (str "Contact updated.", dictSet name new_phone contacts)
    else Except.error (PyErr.keyError (str "Contact not found."))
  | _ => Except.error (PyErr.valueError (str "Give me name and phone please."))

/-- The undecorated `show_phone`: wrong argument count raises `ValueError`,
an absent name raises `KeyError`, otherwise return the stored phone. -/
def show_phone_raw (args : List (List Char)) (contacts : Contacts) :
    Except PyErr (List Char × Contacts) :=
  match args with
  | [name] =>
    if dictHas name contacts then
      Except.ok ((dictGet name contacts).getD [], contacts)
    else Except.error (PyErr.keyError (str "Contact not found."))
  | _ => Except.error (PyErr.valueError (str "Enter user name."))

/-- The `input_error` decorator: a caught `ValueError`/`KeyError`/`IndexError`
becomes the plain-text reply `str(exc)` and the contacts are left as they
were; a normal result passes through. -/
def input_error
    (f : List (List Char) → Contacts → Except PyErr (List Char × Contacts))
    (args : List (List Char)) (contacts : Contacts) : List Char × Contacts :=
  match f args contacts with
  | Except.ok r => r
  | Except.error e => (excStr e, contacts)

/-- Decorated `add_contact` as the REPL calls it. -/
def add_contact : List (List Char) → Contacts → List Char × Contacts :=
  input_error add_contact_raw

/-- Decorated `change_contact` as the REPL calls it. -/
def change_contact : List (List Char) → Contacts → List Char × Contacts :=
  input_error change_contact_raw

/-- Decorated `show_phone` as the REPL calls it. -/
def show_phone : List (List Char) → Contacts → List Char × Contacts :=
  input_error show_phone_raw

/-- Embedding of `show_all`. -/
def show_all (contacts : Contacts) : List Char :=
  match contacts with
  | [] => str "No contacts saved."
  | _ =>
    List.intercalate (str "\n")
      (contacts.map (fun p => p.1 ++ str ": " ++ p.2))

/-- Embedding of `parse_input`: strip and whitespace-split the input; an
empty token list yields the empty command; otherwise the first token is
lowercased and the rest are the arguments, unchanged. -/
def parse_input (user_input : List Char) : List Char × List (List Char) :=
  match pySplit (pyStrip user_input) with
  | [] => ([], [])
  | cmd :: args => (pyLower cmd, args)

/-- What one REPL iteration does, besides updating the contacts. -/
inductive Action
  | quit (msg : List Char)
  | noop
  | reply (msg : List Char)
deriving DecidableEq

/-- The dispatch chain of `main`'s loop body on an already parsed command. -/
def handle (command : List Char) (args : List (List Char)) (contacts : Contacts) :
    Action × Contacts :=
  if command = str "close" ∨ command = str "exit" then
    (Action.quit (str "Good bye!"), contacts)
  else if command = [] then (Action.noop, contacts)
  else if command = str "hello" then
    (Action.reply (str "How can I help you?"), contacts)
  else if command = str "add" then
    let r := add_contact args contacts
    (Action.reply r.1, r.2)
  else if command = str "change" then
    let r := change_contact args contacts
    (Action.reply r.1, r.2)
  else if command = str "phone" then
    let r := show_phone args contacts
    (Action.reply r.1, r.2)
  else if command = str "all" then
    (Action.reply (show_all contacts), contacts)
  else (Action.reply (str "Invalid command."), contacts)

/-- One REPL iteration of `main`: parse the raw input line and dispatch. -/
def step (contacts : Contacts) (user_input : List Char) : Action × Contacts :=
  let p := parse_input user_input
  handle p.1 p.2 contacts

end Task_four

section SplitLemmas

variable {p : Char → Bool}

theorem dropWhile_append_of_all (w cs : List Char) (h : ∀ c ∈ w, p c = true) :
    (w ++ cs).dropWhile p = cs.dropWhile p := by
  induction w with
  | nil => rfl
  | cons a w ih =>
    simp only [List.cons_append, List.dropWhile_cons,
      h a (List.mem_cons_self a w), if_true]
    exact ih fun c hc => h c (List.mem_cons_of_mem a hc)

theorem dropWhile_eq_self_of_head (cs : List Char)
    (h : ∀ c, cs.head? = some c → p c = false) :
    cs.dropWhile p = cs := by
  cases cs with
  | nil => rfl
  | cons a rest =>
    simp only [List.dropWhile_cons, h a rfl]
    simp

theorem takeWhile_append_of_all (d rest : List Char) (h : ∀ c ∈ d, p c = true) :
    (d ++ rest).takeWhile p = d ++ rest.takeWhile p := by
  induction d with
  | nil => rfl
  | cons a d ih =>
    simp only [List.cons_append, List.takeWhile_cons,
      h a (List.mem_cons_self a d), if_true]
    rw [ih fun c hc => h c (List.mem_cons_of_mem a hc)]

theorem takeWhile_eq_nil_of_head (cs : List Char)
    (h : ∀ c, cs.head? = some c → p c = false) :
    cs.takeWhile p = [] := by
  cases cs with
  | nil => rfl
  | cons a rest =>
    simp only [List.takeWhile_cons, h a rfl]
    simp

end SplitLemmas

theorem pyStrip_of_trimmed (w0 body w4 : List Char)
    (hw0 : ∀ c ∈ w0, pyIsSpace c = true)
    (hw4 : ∀ c ∈ w4, pyIsSpace c = true)
    (hb : body ≠ [])
    (hh : ∀ c, body.head? = some c → pyIsSpace c = false)
    (hl : ∀ c, body.getLast? = some c → pyIsSpace c = false) :
    pyStrip (w0 ++ body ++ w4) = body := by
  unfold pyStrip
  rw [List.append_assoc, dropWhile_append_of_all w0 (body ++ w4) hw0]
  have hbw : (body ++ w4).dropWhile pyIsSpace = body ++ w4 := by
    apply dropWhile_eq_self_of_head
    intro c hc
    cases body with
    | nil => exact absurd rfl hb
    | cons a rest =>
      simp only [List.cons_append, List.head?_cons, Option.some.injEq] at hc
      exact hc ▸ hh a rfl
  rw [hbw, List.reverse_append, dropWhile_append_of_all w4.reverse body.reverse
    (fun c hc => hw4 c (List.mem_reverse.mp hc))]
  have hbr : body.reverse.dropWhile pyIsSpace = body.reverse := by
    apply dropWhile_eq_self_of_head
    intro c hc
    rw [List.head?_reverse] at hc
    exact hl c hc
  rw [hbr, List.reverse_reverse]

/-- One step of `pySplitMax` with budget remaining: leading whitespace `w`,
then a nonempty whitespace-free token `d`, then a remainder that is empty or
starts with whitespace, yields `d` followed by the split of the remainder. -/
theorem pySplitMax_step (w d rest : List Char) (n : Nat)
    (hw : ∀ c ∈ w, pyIsSpace c = true)
    (hd : d ≠ [])
    (hds : ∀ c ∈ d, pyIsSpace c = false)
    (hr : ∀ c, rest.head? = some c → pyIsSpace c = true) :
    pySplitMax (w ++ (d ++ rest)) (n + 1) = d :: pySplitMax rest n := by
  have hdrop : (w ++ (d ++ rest)).dropWhile pyIsSpace = d ++ rest := by
    rw [dropWhile_append_of_all w (d ++ rest) hw]
    apply dropWhile_eq_self_of_head
    intro c hc
    cases d with
    | nil => exact absurd rfl hd
    | cons a tl =>
      simp only [List.cons_append, List.head?_cons, Option.some.injEq] at hc
      exact hc ▸ hds a (List.mem_cons_self a tl)
  cases d with
  | nil => exact absurd rfl hd
  | cons a tl =>
    show (match (w ++ (a :: tl ++ rest)).dropWhile pyIsSpace with
      | [] => []
      | c :: r => ((c :: r).takeWhile (fun x => !pyIsSpace x)) ::
          pySplitMax ((c :: r).dropWhile (fun x => !pyIsSpace x)) n) =
      (a :: tl) :: pySplitMax rest n
    rw [hdrop]
    simp only [List.cons_append]
    have htake : ((a :: tl) ++ rest).takeWhile (fun x => !pyIsSpace x) = a :: tl := by
      rw [takeWhile_append_of_all (a :: tl) rest
        (fun c hc => by simp [hds c hc]),
        takeWhile_eq_nil_of_head rest (fun c hc => by simp [hr c hc]),
        List.append_nil]
    have hdrop2 : ((a :: tl) ++ rest).dropWhile (fun x => !pyIsSpace x) = rest := by
      rw [dropWhile_append_of_all (a :: tl) rest
        (fun c hc => by simp [hds c hc])]
      exact dropWhile_eq_self_of_head rest (fun c hc => by simp [hr c hc])
    simp only [List.cons_append] at htake hdrop2
    rw [htake, hdrop2]

/-- The exhausted-budget step of `pySplitMax`: whitespace then a nonempty
remainder starting with a non-whitespace character yields that remainder
verbatim as the single final element. -/
theorem pySplitMax_zero (w m : List Char)
    (hw : ∀ c ∈ w, pyIsSpace c = true)
    (hm : m ≠ [])
    (hmh : ∀ c, m.head? = some c → pyIsSpace c = false) :
    pySplitMax (w ++ m) 0 = [m] := by
  have hdrop : (w ++ m).dropWhile pyIsSpace = m := by
    rw [dropWhile_append_of_all w m hw]
    exact dropWhile_eq_self_of_head m hmh
  cases m with
  | nil => exact absurd rfl hm
  | cons a tl =>
    show (match (w ++ (a :: tl)).dropWhile pyIsSpace with
      | [] => []
      | c :: r => [c :: r]) = [a :: tl]
    rw [hdrop]

/-- The result of `pySplitMax cs n` has at most `n + 1` elements. -/
theorem pySplitMax_length_le (cs : List Char) (n : Nat) :
    (pySplitMax cs n).length ≤ n + 1 := by
  induction n generalizing cs with
  | zero =>
    unfold pySplitMax
    cases cs.dropWhile pyIsSpace <;> simp
  | succ n ih =>
    unfold pySplitMax
    cases cs.dropWhile pyIsSpace with
    | nil => simp
    | cons c rest =>
      simpa using Nat.succ_le_succ (ih _)

theorem head?_append_left (d x : List Char) (c : Char) (hd : d ≠ [])
    (h : (d ++ x).head? = some c) : c ∈ d := by
  cases d with
  | nil => exact absurd rfl hd
  | cons a tl =>
    simp only [List.cons_append, List.head?_cons, Option.some.injEq] at h
    exact h ▸ List.mem_cons_self a tl

/-- Claim C1: for every line consisting of four whitespace-delimited fields
`D T L M` (surrounded by optional leading/trailing whitespace, separated by
nonempty whitespace runs) where `L` is one of INFO, ERROR, DEBUG, WARNING,
`parse_log_line` succeeds and returns a record whose date is `D`, time is
`T`, level is `L`, and message is `M`, with internal whitespace inside `M`
preserved verbatim. -/
theorem c1_parse_wellformed_line
    (D T L M w0 w1 w2 w3 w4 : List Char)
    (hw0 : ∀ c ∈ w0, pyIsSpace c = true)
    (hD : D ≠ []) (hDs : ∀ c ∈ D, pyIsSpace c = false)
    (hw1 : w1 ≠ []) (hw1s : ∀ c ∈ w1, pyIsSpace c = true)
    (hT : T ≠ []) (hTs : ∀ c ∈ T, pyIsSpace c = false)
    (hw2 : w2 ≠ []) (hw2s : ∀ c ∈ w2, pyIsSpace c = true)
    (hL : L ∈ Task_three.LOG_LEVELS)
    (hw3 : w3 ≠ []) (hw3s : ∀ c ∈ w3, pyIsSpace c = true)
    (hM : M ≠ [])
    (hMh : ∀ c, M.head? = some c → pyIsSpace c = false)
    (hMl : ∀ c, M.getLast? = some c → pyIsSpace c = false)
    (hw4 : ∀ c ∈ w4, pyIsSpace c = true) :
    Task_three.parse_log_line (w0 ++ D ++ w1 ++ T ++ w2 ++ L ++ w3 ++ M ++ w4) =
      Except.ok ⟨D, T, L, M⟩ := by
  have hL4 : L = str "INFO" ∨ L = str "ERROR" ∨ L = str "DEBUG" ∨ L = str "WARNING" := by
    simpa [Task_three.LOG_LEVELS] using hL
  have hLne : L ≠ [] := by
    rcases hL4 with h | h | h | h <;> subst h <;> decide
  have hLs : ∀ c ∈ L, pyIsSpace c = false := by
    rcases hL4 with h | h | h | h <;> subst h <;> decide
  set body : List Char := D ++ (w1 ++ (T ++ (w2 ++ (L ++ (w3 ++ M))))) with hbody
  have hbodyne : body ≠ [] := by simp [hbody, hD]
  have ne1 : w1 ++ (T ++ (w2 ++ (L ++ (w3 ++ M)))) ≠ [] := by simp [hM]
  have ne2 : T ++ (w2 ++ (L ++ (w3 ++ M))) ≠ [] := by simp [hM]
  have ne3 : w2 ++ (L ++ (w3 ++ M)) ≠ [] := by simp [hM]
  have ne4 : L ++ (w3 ++ M) ≠ [] := by simp [hM]
  have ne5 : w3 ++ M ≠ [] := by simp [hM]
  have hbh : ∀ c, body.head? = some c → pyIsSpace c = false := by
    intro c hc
    exact hDs c (head?_append_left D _ c hD hc)
  have hbl : ∀ c, body.getLast? = some c → pyIsSpace c = false := by
    intro c hc
    rw [hbody, List.getLast?_append_of_ne_nil D ne1,
      List.getLast?_append_of_ne_nil w1 ne2,
      List.getLast?_append_of_ne_nil T ne3,
      List.getLast?_append_of_ne_nil w2 ne4,
      List.getLast?_append_of_ne_nil L ne5,
      List.getLast?_append_of_ne_nil w3 hM] at hc
    exact hMl c hc
  have hstrip : pyStrip (w0 ++ D ++ w1 ++ T ++ w2 ++ L ++ w3 ++ M ++ w4) = body := by
    have h := pyStrip_of_trimmed w0 body w4 hw0 hw4 hbodyne hbh hbl
    simpa [hbody, List.append_assoc] using h
  have s1 : pySplitMax ([] ++ (D ++ (w1 ++ (T ++ (w2 ++ (L ++ (w3 ++ M))))))) 3 =
      D :: pySplitMax (w1 ++ (T ++ (w2 ++ (L ++ (w3 ++ M))))) 2 :=
    pySplitMax_step [] D _ 2 (by simp) hD hDs
      (fun c hc => hw1s c (head?_append_left w1 _ c hw1 hc))
  have s2 : pySplitMax (w1 ++ (T ++ (w2 ++ (L ++ (w3 ++ M))))) 2 =
      T :: pySplitMax (w2 ++ (L ++ (w3 ++ M))) 1 :=
    pySplitMax_step w1 T _ 1 hw1s hT hTs
      (fun c hc => hw2s c (head?_append_left w2 _ c hw2 hc))
  have s3 : pySplitMax (w2 ++ (L ++ (w3 ++ M))) 1 =
      L :: pySplitMax (w3 ++ M) 0 :=
    pySplitMax_step w2 L _ 0 hw2s hLne hLs
      (fun c hc => hw3s c (head?_append_left w3 _ c hw3 hc))
  have s4 : pySplitMax (w3 ++ M) 0 = [M] := pySplitMax_zero w3 M hw3s hM hMh
  have hsplit : pySplitMax body 3 = [D, T, L, M] := by
    rw [hbody, ← List.nil_append (D ++ (w1 ++ (T ++ (w2 ++ (L ++ (w3 ++ M)))))),
      s1, s2, s3, s4]
  unfold Task_three.parse_log_line
  rw [hstrip, hsplit]
  simp [hL]

/-- Witness for C1 at a concrete line with doubled internal spacing in the
message and trailing whitespace. -/
theorem c1_witness :
    Task_three.parse_log_line
      (str "2024-01-01" ++ str " " ++ str "10:00:00" ++ str "  " ++ str "INFO" ++
        str " " ++ str "Started  the   run" ++ str " ") =
      Except.ok ⟨str "2024-01-01", str "10:00:00", str "INFO", str "Started  the   run"⟩ := by
  have h := c1_parse_wellformed_line
    (str "2024-01-01") (str "10:00:00") (str "INFO") (str "Started  the   run")
    [] (str " ") (str "  ") (str " ") (str " ")
    (by decide) (by decide) (by decide) (by decide) (by decide)
    (by decide) (by decide) (by decide) (by decide) (by decide)
    (by decide) (by decide) (by decide)
    (by
      intro c hc
      rw [show (str "Started  the   run").head? = some 'S' from rfl] at hc
      cases hc
      decide)
    (by
      intro c hc
      rw [show (str "Started  the   run").getLast? = some 'n' from rfl] at hc
      cases hc
      decide)
    (by decide)
  simpa using h

/-- Claim C2: for every raw line, `parse_log_line` fails with a format error
exactly when whitespace-splitting the stripped line (with maxsplit 3) yields
fewer than four tokens, fails with an unknown-level error exactly when it
yields four tokens whose third is not case-exactly in the level set, and
succeeds exactly otherwise; it never fails for any other reason. -/
theorem c2_parse_failure_characterisation (line : List Char) :
    (Task_three.parse_log_line line = Except.error Task_three.ParseErr.formatError ↔
      (pySplitMax (pyStrip line) 3).length < 4) ∧
    (Task_three.parse_log_line line = Except.error Task_three.ParseErr.unknownLevel ↔
      ∃ d t l m, pySplitMax (pyStrip line) 3 = [d, t, l, m] ∧
        l ∉ Task_three.LOG_LEVELS) ∧
    ((∃ r, Task_three.parse_log_line line = Except.ok r) ↔
      ∃ d t l m, pySplitMax (pyStrip line) 3 = [d, t, l, m] ∧
        l ∈ Task_three.LOG_LEVELS) := by
  have hlen := pySplitMax_length_le (pyStrip line) 3
  rcases hps : pySplitMax (pyStrip line) 3 with
    _ | ⟨t1, _ | ⟨t2, _ | ⟨t3, _ | ⟨t4, rest⟩⟩⟩⟩
  · refine ⟨?_, ?_, ?_⟩ <;> simp [Task_three.parse_log_line, hps]
  · refine ⟨?_, ?_, ?_⟩ <;> simp [Task_three.parse_log_line, hps]
  · refine ⟨?_, ?_, ?_⟩ <;> simp [Task_three.parse_log_line, hps]
  · refine ⟨?_, ?_, ?_⟩ <;> simp [Task_three.parse_log_line, hps]
  · rw [hps] at hlen
    simp only [List.length_cons] at hlen
    have hr : rest = [] := List.eq_nil_of_length_eq_zero (by omega)
    subst hr
    by_cases hmem : t3 ∈ Task_three.LOG_LEVELS
    · refine ⟨?_, ?_, ?_⟩ <;> simp [Task_three.parse_log_line, hps, hmem]
      exact ⟨t1, t2, t3, ⟨rfl, rfl, rfl⟩, hmem⟩
    · refine ⟨?_, ?_, ?_⟩ <;> simp [Task_three.parse_log_line, hps, hmem]
      exact ⟨t1, t2, t3, ⟨rfl, rfl, rfl⟩, hmem⟩

theorem processLines_eq (lines : List (List Char)) (n : Nat) :
    Task_three.processLines n lines =
      (Task_three.parsedRecords lines,
       (Task_three.numberFrom n lines).filterMap (fun p =>
         if (pyStrip p.2).isEmpty then none
         else
           match Task_three.parse_log_line p.2 with
           | Except.ok _ => none
           | Except.error e => some (p.1, e))) := by
  induction lines generalizing n with
  | nil => rfl
  | cons l rest ih =>
    by_cases hb : pyStrip l = []
    · have hb2 : (pyStrip l).isEmpty = true := by simp [hb]
      simp [Task_three.processLines, Task_three.parsedRecords,
        Task_three.numberFrom, List.filterMap_cons, hb, hb2, ih]
    · have hb2 : (pyStrip l).isEmpty = false := by simpa using hb
      cases hp : Task_three.parse_log_line l with
      | ok r =>
        simp [Task_three.processLines, Task_three.parsedRecords,
          Task_three.numberFrom, List.filterMap_cons, hb, hb2, hp, ih,
          Except.toOption]
      | error e =>
        simp [Task_three.processLines, Task_three.parsedRecords,
          Task_three.numberFrom, List.filterMap_cons, hb, hb2, hp, ih,
          Except.toOption]

/-- Claim C3: for every readable file, `load_logs` returns exactly the
records of the successfully parsed non-blank lines in file order; blank
lines are skipped without a warning, and each non-blank failing line yields
exactly one warning carrying its line number; in particular the scenario
file with 3 valid lines and 1 malformed line yields exactly 3 records and
exactly 1 warning, for line 2. -/
theorem c3_load_logs_skip_and_warn :
    (∀ (fs : List Char → Option (List (List Char))) (path : List Char)
       (lines : List (List Char)), fs path = some lines →
       Task_three.load_logs fs path =
         Except.ok (Task_three.parsedRecords lines, Task_three.parseWarnings lines)) ∧
    (Task_three.parsedRecords Task_three.demoLines).length = 3 ∧
    (Task_three.parseWarnings Task_three.demoLines).length = 1 ∧
    (Task_three.parseWarnings Task_three.demoLines).map Prod.fst = [2] := by
  refine ⟨?_, by decide, by decide, by decide⟩
  intro fs path lines h
  unfold Task_three.load_logs
  rw [h]
  show Except.ok (Task_three.processLines 1 lines) = _
  rw [processLines_eq lines 1]
  rfl

/-- Witness for C3: loading the scenario file through a concrete one-file
filesystem succeeds with the declarative records and warnings. -/
theorem c3_witness :
    Task_three.load_logs Task_three.demoFs Task_three.demoPath =
      Except.ok (Task_three.parsedRecords Task_three.demoLines,
        Task_three.parseWarnings Task_three.demoLines) :=
  c3_load_logs_skip_and_warn.1 Task_three.demoFs Task_three.demoPath
    Task_three.demoLines (by decide)

/-- Claim C4: for every path whose file cannot be opened, `load_logs` fails
as a whole with an error carrying the path, and returns no partial record
list. -/
theorem c4_load_logs_unopenable
    (fs : List Char → Option (List (List Char))) (path : List Char)
    (h : fs path = none) :
    Task_three.load_logs fs path =
      Except.error (Task_three.LoadErr.sourceUnavailable path) ∧
    ∀ res, Task_three.load_logs fs path ≠ Except.ok res := by
  unfold Task_three.load_logs
  rw [h]
  exact ⟨rfl, fun res hres => by cases hres⟩

/-- Witness for C4: a nonexistent path on the empty filesystem fails with
the error carrying that path. -/
theorem c4_witness :
    Task_three.load_logs (fun _ => none) (str "missing.txt") =
      Except.error (Task_three.LoadErr.sourceUnavailable (str "missing.txt")) :=
  (c4_load_logs_unopenable (fun _ => none) (str "missing.txt") rfl).1

theorem bumpKey_none (k : List Char) (m : List (List Char × Nat))
    (h : k ∉ m.map Prod.fst) : Task_three.bumpKey k m = none := by
  induction m with
  | nil => rfl
  | cons p rest ih =>
    obtain ⟨k2, v⟩ := p
    simp only [List.map_cons, List.mem_cons] at h
    push_neg at h
    simp only [Task_three.bumpKey]
    rw [if_neg fun he => h.1 he.symm, ih h.2]
    rfl

theorem bumpKey_some (k : List Char) (m : List (List Char × Nat))
    (h : k ∈ m.map Prod.fst) :
    ∃ m2, Task_three.bumpKey k m = some m2 ∧
      m2.map Prod.fst = m.map Prod.fst ∧
      (m2.map Prod.snd).sum = (m.map Prod.snd).sum + 1 := by
  induction m with
  | nil => simp at h
  | cons p rest ih =>
    obtain ⟨k2, v⟩ := p
    by_cases he : k2 = k
    · subst he
      refine ⟨(k2, v + 1) :: rest, ?_, by simp, ?_⟩
      · simp [Task_three.bumpKey]
      · simp only [List.map_cons, List.sum_cons]
        omega
    · have h2 : k ∈ rest.map Prod.fst := by
        simp only [List.map_cons, List.mem_cons] at h
        rcases h with h | h
        · exact absurd h.symm he
        · exact h
      obtain ⟨m2, hm, hk, hs⟩ := ih h2
      refine ⟨(k2, v) :: m2, ?_, ?_, ?_⟩
      · simp [Task_three.bumpKey, he, hm]
      · simp [hk]
      · simp only [List.map_cons, List.sum_cons, hs]
        omega

theorem countLoop_some (logs : List Task_three.LogRecord)
    (m : List (List Char × Nat))
    (h : ∀ r ∈ logs, r.level ∈ m.map Prod.fst) :
    ∃ m2, Task_three.countLoop m logs = some m2 ∧
      m2.map Prod.fst = m.map Prod.fst ∧
      (m2.map Prod.snd).sum = (m.map Prod.snd).sum + logs.length := by
  induction logs generalizing m with
  | nil => exact ⟨m, rfl, rfl, by simp⟩
  | cons r rest ih =>
    obtain ⟨m1, hb, hk1, hs1⟩ :=
      bumpKey_some r.level m (h r (List.mem_cons_self r rest))
    obtain ⟨m2, hc, hk2, hs2⟩ := ih m1 (fun x hx => by
      rw [hk1]
      exact h x (List.mem_cons_of_mem r hx))
    refine ⟨m2, ?_, ?_, ?_⟩
    · simp [Task_three.countLoop, hb, hc]
    · rw [hk2, hk1]
    · rw [hs2, hs1]
      simp only [List.length_cons]
      omega

theorem countLoop_none (logs : List Task_three.LogRecord)
    (m : List (List Char × Nat))
    (h : ∃ r ∈ logs, r.level ∉ m.map Prod.fst) :
    Task_three.countLoop m logs = none := by
  induction logs generalizing m with
  | nil => simp at h
  | cons r rest ih =>
    by_cases hr : r.level ∈ m.map Prod.fst
    · obtain ⟨m1, hb, hk1, _⟩ := bumpKey_some r.level m hr
      obtain ⟨x, hx, hxl⟩ := h
      rcases List.mem_cons.mp hx with rfl | hx2
      · exact absurd hr hxl
      · have hrec : Task_three.countLoop m1 rest = none :=
          ih m1 ⟨x, hx2, by rw [hk1]; exact hxl⟩
        simp [Task_three.countLoop, hb, hrec]
    · have hb := bumpKey_none r.level m hr
      simp [Task_three.countLoop, hb]

theorem bumpKey_preserve (k : List Char) (m m2 : List (List Char × Nat))
    (h : Task_three.bumpKey k m = some m2) (k2 : List Char) (v : Nat)
    (hne : k2 ≠ k) (hmem : (k2, v) ∈ m) : (k2, v) ∈ m2 := by
  induction m generalizing m2 with
  | nil => cases h
  | cons p rest ih =>
    obtain ⟨pk, pv⟩ := p
    by_cases hp : pk = k
    · rw [show Task_three.bumpKey k ((pk, pv) :: rest) =
          some ((pk, pv + 1) :: rest) by
        unfold Task_three.bumpKey
        rw [if_pos hp]] at h
      cases h
      rcases List.mem_cons.mp hmem with he | hm
      · cases he
        exact absurd hp hne
      · exact List.mem_cons_of_mem _ hm
    · rw [show Task_three.bumpKey k ((pk, pv) :: rest) =
          (Task_three.bumpKey k rest).map (fun r => (pk, pv) :: r) by
        simp only [Task_three.bumpKey]
        rw [if_neg hp]] at h
      cases hrest : Task_three.bumpKey k rest with
      | none =>
        rw [hrest] at h
        cases h
      | some m1 =>
        rw [hrest] at h
        have h2 : some ((pk, pv) :: m1) = some m2 := h
        cases h2
        rcases List.mem_cons.mp hmem with he | hm
        · exact he ▸ List.mem_cons_self _ _
        · exact List.mem_cons_of_mem _ (ih m1 hrest hm)

theorem countLoop_preserve (logs : List Task_three.LogRecord)
    (m m2 : List (List Char × Nat))
    (h : Task_three.countLoop m logs = some m2) (k2 : List Char) (v : Nat)
    (hmem : (k2, v) ∈ m) (habsent : ∀ r ∈ logs, r.level ≠ k2) :
    (k2, v) ∈ m2 := by
  induction logs generalizing m with
  | nil =>
    have h2 : some m = some m2 := h
    cases h2
    exact hmem
  | cons r rest ih =>
    cases hb : Task_three.bumpKey r.level m with
    | none =>
      rw [show Task_three.countLoop m (r :: rest) = none by
        unfold Task_three.countLoop
        rw [hb]] at h
      cases h
    | some m1 =>
      rw [show Task_three.countLoop m (r :: rest) =
          Task_three.countLoop m1 rest by
        simp only [Task_three.countLoop, hb]] at h
      have hne : k2 ≠ r.level :=
        fun he => habsent r (List.mem_cons_self r rest) (he ▸ rfl)
      exact ih m1 h
        (bumpKey_preserve r.level m m1 hb k2 v hne hmem)
        (fun x hx => habsent x (List.mem_cons_of_mem r hx))

/-- Claim C5: for every sequence of records whose levels all lie in the
fixed level set, `count_logs_by_level` returns a mapping whose keys are
exactly INFO, ERROR, DEBUG, WARNING in that order, with levels absent from
the sequence mapped to 0, and the counts sum to the length of the
sequence. -/
theorem c5_count_keys_and_total (logs : List Task_three.LogRecord)
    (h : ∀ r ∈ logs, r.level ∈ Task_three.LOG_LEVELS) :
    ∃ counts, Task_three.count_logs_by_level logs = some counts ∧
      counts.map Prod.fst = Task_three.LOG_LEVELS ∧
      (counts.map Prod.snd).sum = logs.length ∧
      ∀ lvl ∈ Task_three.LOG_LEVELS,
        (∀ r ∈ logs, r.level ≠ lvl) → (lvl, 0) ∈ counts := by
  have hkeys : Task_three.initCounts.map Prod.fst = Task_three.LOG_LEVELS := rfl
  obtain ⟨m2, hc, hk, hs⟩ := countLoop_some logs Task_three.initCounts
    (fun r hr => by rw [hkeys]; exact h r hr)
  refine ⟨m2, hc, by rw [hk, hkeys], ?_, ?_⟩
  · rw [hs, show ((Task_three.initCounts.map Prod.snd).sum) = 0 from rfl,
      Nat.zero_add]
  · intro lvl hlvl habsent
    have hinit : (lvl, 0) ∈ Task_three.initCounts := by
      unfold Task_three.initCounts
      exact List.mem_map.mpr ⟨lvl, hlvl, rfl⟩
    exact countLoop_preserve logs Task_three.initCounts m2 hc lvl 0 hinit habsent

/-- Witness for C5 at a concrete three-record sequence (two INFO, one
ERROR). -/
theorem c5_witness :
    ∃ counts,
      Task_three.count_logs_by_level
        [⟨str "2024-01-01", str "10:00:00", str "INFO", str "a"⟩,
         ⟨str "2024-01-01", str "10:01:00", str "INFO", str "b"⟩,
         ⟨str "2024-01-01", str "10:02:00", str "ERROR", str "c"⟩] = some counts ∧
      counts.map Prod.fst = Task_three.LOG_LEVELS ∧
      (counts.map Prod.snd).sum =
        ([⟨str "2024-01-01", str "10:00:00", str "INFO", str "a"⟩,
          ⟨str "2024-01-01", str "10:01:00", str "INFO", str "b"⟩,
          ⟨str "2024-01-01", str "10:02:00", str "ERROR", str "c"⟩] :
            List Task_three.LogRecord).length ∧
      ∀ lvl ∈ Task_three.LOG_LEVELS,
        (∀ r ∈ ([⟨str "2024-01-01", str "10:00:00", str "INFO", str "a"⟩,
            ⟨str "2024-01-01", str "10:01:00", str "INFO", str "b"⟩,
            ⟨str "2024-01-01", str "10:02:00", str "ERROR", str "c"⟩] :
              List Task_three.LogRecord), r.level ≠ lvl) → (lvl, 0) ∈ counts :=
  c5_count_keys_and_total _ (by decide)

/-- Claim C6: `filter_logs_by_level` fails with an unsupported-level error
exactly when the uppercased level is outside the fixed set; otherwise it
returns the subsequence, in original order, of exactly the records whose
level equals the uppercased argument; filtering with lowercase and uppercase
spellings of ERROR agrees, and CRITICAL fails. -/
theorem c6_filter_case_insensitive (logs : List Task_three.LogRecord)
    (level : List Char) :
    (pyUpper level ∉ Task_three.LOG_LEVELS →
      Task_three.filter_logs_by_level logs level =
        Except.error (Task_three.FilterErr.unsupportedLevel level)) ∧
    (pyUpper level ∈ Task_three.LOG_LEVELS →
      ∃ res, Task_three.filter_logs_by_level logs level = Except.ok res ∧
        res = logs.filter (fun r => r.level == pyUpper level) ∧
        res.Sublist logs ∧
        ∀ r, r ∈ res ↔ r ∈ logs ∧ r.level = pyUpper level) ∧
    (Task_three.filter_logs_by_level logs (str "error") =
      Task_three.filter_logs_by_level logs (str "ERROR")) ∧
    (Task_three.filter_logs_by_level logs (str "CRITICAL") =
      Except.error (Task_three.FilterErr.unsupportedLevel (str "CRITICAL"))) := by
  refine ⟨?_, ?_, ?_, ?_⟩
  · intro h
    simp [Task_three.filter_logs_by_level, h]
  · intro h
    refine ⟨logs.filter (fun r => r.level == pyUpper level),
      by simp [Task_three.filter_logs_by_level, h], rfl,
      List.filter_sublist logs, ?_⟩
    intro r
    simp [List.mem_filter]
  · have he : pyUpper (str "error") = pyUpper (str "ERROR") := by decide
    have hmem : pyUpper (str "ERROR") ∈ Task_three.LOG_LEVELS := by decide
    simp [Task_three.filter_logs_by_level, he, hmem]
  · have hc : pyUpper (str "CRITICAL") ∉ Task_three.LOG_LEVELS := by decide
    simp [Task_three.filter_logs_by_level, hc]

/-- Witness for C6: on a concrete two-record list, filtering with lowercase
level succeeds with exactly the ERROR record, and CRITICAL is rejected. -/
theorem c6_witness :
    (∃ res,
      Task_three.filter_logs_by_level
        [⟨str "2024-01-01", str "10:00:00", str "ERROR", str "boom"⟩,
         ⟨str "2024-01-01", str "10:01:00", str "INFO", str "ok"⟩]
        (str "error") = Except.ok res ∧
      res = [⟨str "2024-01-01", str "10:00:00", str "ERROR", str "boom"⟩].filter
          (fun r => r.level == pyUpper (str "error")) ++
        [⟨str "2024-01-01", str "10:01:00", str "INFO", str "ok"⟩].filter
          (fun r => r.level == pyUpper (str "error")) ∧
      res.length = 1) ∧
    Task_three.filter_logs_by_level ([] : List Task_three.LogRecord)
      (str "CRITICAL") =
      Except.error (Task_three.FilterErr.unsupportedLevel (str "CRITICAL")) := by
  constructor
  · obtain ⟨res, h1, h2, _, _⟩ :=
      (c6_filter_case_insensitive
        [⟨str "2024-01-01", str "10:00:00", str "ERROR", str "boom"⟩,
         ⟨str "2024-01-01", str "10:01:00", str "INFO", str "ok"⟩]
        (str "error")).2.1 (by decide)
    refine ⟨res, h1, ?_, ?_⟩
    · rw [h2]
      decide
    · rw [h2]
      decide
  · exact (c6_filter_case_insensitive [] (str "CRITICAL")).2.2.2

/-- Claim C10: `count_logs_by_level` is total only under the record
invariant: a sequence containing a record whose level is outside the fixed
set makes the operation raise `KeyError` (modelled as `none`) instead of
returning a mapping; when every level is in the fixed set the error branch
is unreachable. -/
theorem c10_count_keyerror_outside_invariant :
    (∀ logs : List Task_three.LogRecord,
      (∃ r ∈ logs, r.level ∉ Task_three.LOG_LEVELS) →
      Task_three.count_logs_by_level logs = none) ∧
    (∀ logs : List Task_three.LogRecord,
      (∀ r ∈ logs, r.level ∈ Task_three.LOG_LEVELS) →
      (Task_three.count_logs_by_level logs).isSome = true) := by
  constructor
  · intro logs ⟨r, hr, hl⟩
    apply countLoop_none
    exact ⟨r, hr, by
      rw [show Task_three.initCounts.map Prod.fst = Task_three.LOG_LEVELS from rfl]
      exact hl⟩
  · intro logs h
    obtain ⟨m2, hc, _, _⟩ := countLoop_some logs Task_three.initCounts
      (fun r hr => by
        rw [show Task_three.initCounts.map Prod.fst = Task_three.LOG_LEVELS from rfl]
        exact h r hr)
    unfold Task_three.count_logs_by_level
    rw [hc]
    rfl

/-- Witness for C10: a CRITICAL-level record makes counting fail, and an
INFO-only sequence counts successfully. -/
theorem c10_witness :
    Task_three.count_logs_by_level
      [⟨str "2024-01-01", str "10:00:00", str "CRITICAL", str "x"⟩] = none ∧
    (Task_three.count_logs_by_level
      [⟨str "2024-01-01", str "10:00:00", str "INFO", str "x"⟩]).isSome = true :=
  ⟨c10_count_keyerror_outside_invariant.1 _
      ⟨⟨str "2024-01-01", str "10:00:00", str "CRITICAL", str "x"⟩,
        by decide, by decide⟩,
    c10_count_keyerror_outside_invariant.2 _ (by decide)⟩

theorem parse_log_line_ok_level (line : List Char) (r : Task_three.LogRecord)
    (h : Task_three.parse_log_line line = Except.ok r) :
    r.level ∈ Task_three.LOG_LEVELS := by
  have hlen := pySplitMax_length_le (pyStrip line) 3
  unfold Task_three.parse_log_line at h
  rcases hps : pySplitMax (pyStrip line) 3 with
    _ | ⟨t1, _ | ⟨t2, _ | ⟨t3, _ | ⟨t4, rest⟩⟩⟩⟩ <;> rw [hps] at h
  · cases h
  · cases h
  · cases h
  · cases h
  · rw [hps] at hlen
    simp only [List.length_cons] at hlen
    have hr : rest = [] := List.eq_nil_of_length_eq_zero (by omega)
    subst hr
    have h2 : (if t3 ∈ Task_three.LOG_LEVELS then
        Except.ok (⟨t1, t2, t3, t4⟩ : Task_three.LogRecord)
        else Except.error Task_three.ParseErr.unknownLevel) = Except.ok r := h
    by_cases hmem : t3 ∈ Task_three.LOG_LEVELS
    · rw [if_pos hmem] at h2
      cases h2
      exact hmem
    · rw [if_neg hmem] at h2
      cases h2

theorem parsedRecords_levels (lines : List (List Char)) :
    ∀ r ∈ Task_three.parsedRecords lines, r.level ∈ Task_three.LOG_LEVELS := by
  intro r hr
  unfold Task_three.parsedRecords at hr
  rw [List.mem_filterMap] at hr
  obtain ⟨l, _, hf⟩ := hr
  by_cases hb : (pyStrip l).isEmpty
  · rw [if_pos hb] at hf
    cases hf
  · rw [if_neg hb] at hf
    cases hp : Task_three.parse_log_line l with
    | ok rec =>
      rw [hp] at hf
      have hf2 : some rec = some r := hf
      cases hf2
      exact parse_log_line_ok_level l r hp
    | error e =>
      rw [hp] at hf
      cases hf

/-- Claim C7: the log-tool CLI returns exit code 0 whenever the file loads
and any given level argument is supported (including when it filters to zero
records, since the result holds for every file content), and returns exit
code 1 when no file-path argument is given, when the file cannot be opened,
or when the level argument is unsupported. -/
theorem c7_main_exit_codes (fs : List Char → Option (List (List Char))) :
    (Task_three.main fs [] = some 1) ∧
    (∀ prog, Task_three.main fs [prog] = some 1) ∧
    (∀ prog path rest, fs path = none →
      Task_three.main fs (prog :: path :: rest) = some 1) ∧
    (∀ prog path lines, fs path = some lines →
      Task_three.main fs [prog, path] = some 0) ∧
    (∀ prog path lv extra lines, fs path = some lines →
      pyUpper lv ∈ Task_three.LOG_LEVELS →
      Task_three.main fs (prog :: path :: lv :: extra) = some 0) ∧
    (∀ prog path lv extra lines, fs path = some lines →
      pyUpper lv ∉ Task_three.LOG_LEVELS →
      Task_three.main fs (prog :: path :: lv :: extra) = some 1) := by
  have hcount : ∀ lines : List (List Char),
      ∃ m2, Task_three.count_logs_by_level
        (Task_three.processLines 1 lines).1 = some m2 := by
    intro lines
    have hlev : ∀ r ∈ (Task_three.processLines 1 lines).1,
        r.level ∈ Task_three.LOG_LEVELS := by
      rw [processLines_eq lines 1]
      exact parsedRecords_levels lines
    obtain ⟨m2, hc, _, _⟩ := countLoop_some _ Task_three.initCounts
      (fun r hr => by
        rw [show Task_three.initCounts.map Prod.fst = Task_three.LOG_LEVELS from rfl]
        exact hlev r hr)
    exact ⟨m2, hc⟩
  refine ⟨rfl, fun prog => rfl, ?_, ?_, ?_, ?_⟩
  · intro prog path rest h
    simp [Task_three.main, Task_three.load_logs, h]
  · intro prog path lines h
    obtain ⟨m2, hc⟩ := hcount lines
    simp [Task_three.main, Task_three.load_logs, h, hc]
  · intro prog path lv extra lines h hmem
    obtain ⟨m2, hc⟩ := hcount lines
    simp [Task_three.main, Task_three.load_logs, h, hc,
      Task_three.filter_logs_by_level, hmem]
  · intro prog path lv extra lines h hmem
    obtain ⟨m2, hc⟩ := hcount lines
    simp [Task_three.main, Task_three.load_logs, h, hc,
      Task_three.filter_logs_by_level, hmem]

/-- Witness for C7 on the concrete scenario filesystem: success without and
with a supported (lowercase) level, failure on a missing path and on an
unsupported level. -/
theorem c7_witness :
    Task_three.main Task_three.demoFs [str "main.py", Task_three.demoPath] = some 0 ∧
    Task_three.main Task_three.demoFs
      [str "main.py", Task_three.demoPath, str "error"] = some 0 ∧
    Task_three.main Task_three.demoFs
      [str "main.py", str "absent.txt"] = some 1 ∧
    Task_three.main Task_three.demoFs
      [str "main.py", Task_three.demoPath, str "critical"] = some 1 ∧
    Task_three.main Task_three.demoFs [] = some 1 :=
  ⟨(c7_main_exit_codes Task_three.demoFs).2.2.2.1 (str "main.py")
      Task_three.demoPath Task_three.demoLines (by decide),
   (c7_main_exit_codes Task_three.demoFs).2.2.2.2.1 (str "main.py")
      Task_three.demoPath (str "error") [] Task_three.demoLines
      (by decide) (by decide),
   (c7_main_exit_codes Task_three.demoFs).2.2.1 (str "main.py")
      (str "absent.txt") [] (by decide),
   (c7_main_exit_codes Task_three.demoFs).2.2.2.2.2 (str "main.py")
      Task_three.demoPath (str "critical") [] Task_three.demoLines
      (by decide) (by decide),
   (c7_main_exit_codes Task_three.demoFs).1⟩

/-- Claim C8: the contact-tool command handlers convert user-input errors
into plain-text replies instead of propagating exceptions: `change` on an
absent name returns the rendered `KeyError` message (leaving the store
unchanged), and `add` with a single argument returns the usage message. -/
theorem c8_handlers_reply_not_raise :
    (∀ contacts : Task_four.Contacts,
      Task_four.dictHas (str "bob") contacts = false →
      Task_four.change_contact [str "bob", str "999"] contacts =
        (Task_four.excStr (Task_four.PyErr.keyError (str "Contact not found.")),
         contacts)) ∧
    (∀ (contacts : Task_four.Contacts) (a : List Char),
      Task_four.add_contact [a] contacts =
        (str "Give me name and phone please.", contacts)) := by
  constructor
  · intro contacts h
    unfold Task_four.change_contact Task_four.input_error
      Task_four.change_contact_raw
    simp [h]
  · intro contacts a
    rfl

/-- Witness for C8: the empty store, where `bob` is absent. -/
theorem c8_witness :
    Task_four.change_contact [str "bob", str "999"] [] =
      (Task_four.excStr (Task_four.PyErr.keyError (str "Contact not found.")),
       []) ∧
    Task_four.add_contact [str "onlyname"] [] =
      (str "Give me name and phone please.", []) :=
  ⟨c8_handlers_reply_not_raise.1 [] rfl,
   c8_handlers_reply_not_raise.2 [] (str "onlyname")⟩

theorem dictHas_dictSet_ne (k k2 v : List Char) (d : Task_four.Contacts)
    (hne : k2 ≠ k) :
    Task_four.dictHas k (Task_four.dictSet k2 v d) = Task_four.dictHas k d := by
  induction d with
  | nil =>
    simp [Task_four.dictSet, Task_four.dictHas, hne]
  | cons p rest ih =>
    obtain ⟨pk, pv⟩ := p
    by_cases hp : pk = k2
    · subst hp
      simp [Task_four.dictSet, Task_four.dictHas]
    · have hp2 : (pk == k2) = false := by simp [hp]
      simp only [Task_four.dictSet, hp2, Bool.false_eq_true, if_false,
        Task_four.dictHas, List.any_cons]
      rw [show (Task_four.dictSet k2 v rest).any (fun p => p.1 == k) =
          Task_four.dictHas k (Task_four.dictSet k2 v rest) from rfl,
        show rest.any (fun p => p.1 == k) = Task_four.dictHas k rest from rfl,
        ih]

/-- Counterexample to C9 as frozen: its second half is quantified over every
store, but in a store that already maps lowercase `alice` to `777`, the
session `add Alice 123` then `phone alice` replies `777`, not the not-found
reply. -/
theorem c9_counterexample :
    (Task_four.step
        (Task_four.step [(str "alice", str "777")] (str "add Alice 123")).2
        (str "phone alice")).1 = Task_four.Action.reply (str "777") ∧
    Task_four.Action.reply (str "777") ≠
      Task_four.Action.reply
        (Task_four.excStr (Task_four.PyErr.keyError (str "Contact not found."))) := by
  constructor
  · decide
  · decide

/-- Claim C9 as amended: command words are matched case-insensitively
(`parse_input` lowercases only the first token, so `ADD` and `add` run the
same handler), while contact names are case-sensitive: for every store that
does not already contain the key `alice`, after `add Alice 123`, `phone
alice` returns the not-found reply rather than `123`. -/
theorem c9_commands_case_insensitive_names_sensitive :
    (∀ (input t : List Char) (ts : List (List Char)),
      pySplit (pyStrip input) = t :: ts →
      Task_four.parse_input input = (pyLower t, ts)) ∧
    (∀ contacts : Task_four.Contacts,
      Task_four.step contacts (str "ADD Alice 123") =
        Task_four.step contacts (str "add Alice 123")) ∧
    (∀ contacts : Task_four.Contacts,
      Task_four.dictHas (str "alice") contacts = false →
      (Task_four.step (Task_four.step contacts (str "add Alice 123")).2
         (str "phone alice")).1 =
        Task_four.Action.reply
          (Task_four.excStr (Task_four.PyErr.keyError (str "Contact not found.")))) := by
  refine ⟨?_, ?_, ?_⟩
  · intro input t ts h
    unfold Task_four.parse_input
    rw [h]
  · intro contacts
    rfl
  · intro contacts h
    have hstep : (Task_four.step contacts (str "add Alice 123")).2 =
        Task_four.dictSet (str "Alice") (str "123") contacts := rfl
    rw [hstep]
    have hhas : Task_four.dictHas (str "alice")
        (Task_four.dictSet (str "Alice") (str "123") contacts) = false := by
      rw [dictHas_dictSet_ne _ _ _ _ (by decide)]
      exact h
    have hsp : Task_four.show_phone [str "alice"]
        (Task_four.dictSet (str "Alice") (str "123") contacts) =
        (Task_four.excStr (Task_four.PyErr.keyError (str "Contact not found.")),
         Task_four.dictSet (str "Alice") (str "123") contacts) := by
      unfold Task_four.show_phone Task_four.input_error Task_four.show_phone_raw
      simp [hhas]
    show Task_four.Action.reply
        (Task_four.show_phone [str "alice"]
          (Task_four.dictSet (str "Alice") (str "123") contacts)).1 = _
    rw [hsp]

/-- Witness for the amended C9: the uppercase command parses to the same
lowercased command with untouched arguments, and on the empty store the
case-mismatched lookup replies not-found. -/
theorem c9_witness :
    Task_four.parse_input (str "ADD Bob 42") =
      (pyLower (str "ADD"), [str "Bob", str "42"]) ∧
    (Task_four.step (Task_four.step [] (str "add Alice 123")).2
       (str "phone alice")).1 =
      Task_four.Action.reply
        (Task_four.excStr (Task_four.PyErr.keyError (str "Contact not found."))) :=
  ⟨c9_commands_case_insensitive_names_sensitive.1 (str "ADD Bob 42")
      (str "ADD") [str "Bob", str "42"] (by decide),
   c9_commands_case_insensitive_names_sensitive.2.2 [] rfl⟩
